import Mathlib

/-!
Verification of the Deckyfin front-end core: the settings-draft store
(`mutateDraft` / `persistSettings`), the library snapshot cache
(`loadGames`), and the operation dispatch protocol (`markBusy` /
`callWithToaster` / the per-operation handlers) of the two front-end
modules `src/src/index.tsx` (namespace `Idx`) and `src/unnamed/part_000`
(namespace `Unm`).

JavaScript objects are modelled as association lists kept in insertion
order (`lookupEntry` / `setEntry` mirror `o[k]` and `o[k] = v` /
`{ ...o, [k]: v }`).  Each async function is modelled as a pure function
from its pre-state and the outcome of its single RPC call (an `Except`:
resolution or rejection) to its post-state together with the trace of
observable effects (busy marks, toasts, refresh invocations); this is
faithful for the run-to-completion semantics of one dispatched task.
-/

namespace Deckyfin

/-- Payload of a `toaster.toast` call: `title`, `body` and the `critical`
severity flag (absent in the source means `false`). -/
structure Toast where
  title : String
  body : String
  critical : Bool
deriving DecidableEq

/-- JavaScript object field read `o[k]`: the value at the first binding of
`key`, or `none` (`undefined`) when the key is absent. -/
def lookupEntry {α : Type} : List (String × α) → String → Option α
  | [], _ => none
  | (k, w) :: rest, key => if k = key then some w else lookupEntry rest key

/-- JavaScript object field write `o[k] = v` (also `{ ...o, [k]: v }`):
an existing binding of `key` is overwritten in place (insertion order is
kept), a new key is appended at the end. -/
def setEntry {α : Type} : List (String × α) → String → α → List (String × α)
  | [], key, v => [(key, v)]
  | (k, w) :: rest, key, v =>
    if k = key then (key, v) :: rest else (k, w) :: setEntry rest key v

/-- Scalar leaf of the settings object: `mutateDraft` receives
`value: string | boolean`. -/
inductive Value : Type
  | str (s : String)
  | bool (b : Bool)
deriving DecidableEq

/-- Dynamic (untyped) view of the settings object, as the `any`-typed
cursor of `mutateDraft` manipulates it: a scalar leaf or an object of
named fields in insertion order. -/
inductive Tree : Type
  | prim (v : Value)
  | obj (fields : List (String × Tree))

/-- Object spread `{ ...(x ?? {}) }` applied to an optional field value:
an object spreads to its fields, a missing value (`undefined`) and a
boolean spread to no fields, and a string spreads to its own enumerable
index properties (one single-character string per position). -/
def spreadVal : Option Tree → List (String × Tree)
  | some (Tree.obj fields) => fields
  | some (Tree.prim (Value.str s)) =>
      s.toList.enum.map (fun p => (toString p.1, Tree.prim (Value.str (String.singleton p.2))))
  | some (Tree.prim (Value.bool _)) => []
  | none => []

/-- The clone-along-path loop of `mutateDraft`, rendered functionally:
`clone = { ...prev }`, then for every path segment but the last
`cursor[segment] = { ...(cursor[segment] ?? {}) }` and descend, finally
`cursor[path[path.length - 1]] = value`.  With an empty path the source
evaluates `path[path.length - 1]` to `undefined` and assigns the key
`"undefined"`. -/
def setPathGo : List (String × Tree) → List String → Value → List (String × Tree)
  | fields, [], v => setEntry fields "undefined" (Tree.prim v)
  | fields, [s], v => setEntry fields s (Tree.prim v)
  | fields, s :: s2 :: rest, v =>
      setEntry fields s
        (Tree.obj (setPathGo (spreadVal (lookupEntry fields s)) (s2 :: rest) v))

/-- Reading a nested field along a path of names: `some` subtree when every
segment exists (descending only through objects), else `none`. -/
def getPath : Tree → List String → Option Tree
  | t, [] => some t
  | Tree.prim _, _ :: _ => none
  | Tree.obj fields, s :: rest =>
    match lookupEntry fields s with
    | some t => getPath t rest
    | none => none

/-- `p` addresses a leaf of `t`: following `p` through `t` ends at a
scalar value. -/
def addressesLeaf (t : Tree) (p : List String) : Bool :=
  match getPath t p with
  | some (Tree.prim _) => true
  | _ => false

/-- The settings-related state of `Content`: persisted `settings`, the
editable `settingsDraft`, the `settingsDirty` flag and the
`savingSettings` in-flight flag.  Identical in both modules. -/
structure ConfigStore where
  settings : Option Tree
  settingsDraft : Option Tree
  settingsDirty : Bool
  savingSettings : Bool

/-- `mutateDraft(path, value)`: the functional updater returns the
previous draft unchanged when it is `null`, else the clone-along-path
update; afterwards `setSettingsDirty(true)` runs unconditionally (also
when the draft was `null`).  Identical in both modules. -/
def mutateDraft (st : ConfigStore) (path : List String) (v : Value) : ConfigStore :=
  { st with
    settingsDraft :=
      match st.settingsDraft with
      | none => none
      | some prev => some (Tree.obj (setPathGo (spreadVal (some prev)) path v))
    settingsDirty := true }

/-- Result of one run of `persistSettings`: the post-state, the toasts
issued, and whether `api.saveSettings` was invoked at all. -/
structure CommitResult where
  state : ConfigStore
  toasts : List Toast
  rpcCalled : Bool

/-- `persistSettings()` run to completion against a save RPC that either
resolves with the (possibly normalized) settings or rejects.  The guard is
`if (!settingsDraft || savingSettings) return;` — `settingsDirty` is not
consulted.  On success persisted and draft are both replaced by the
returned value, the dirty flag is cleared and a success toast is shown; on
rejection only a critical toast is shown; `setSavingSettings(false)` runs
in `finally`.  Identical in both modules. -/
def persistSettings (st : ConfigStore) (rpc : Except Unit Tree) : CommitResult :=
  if st.settingsDraft.isNone || st.savingSettings then ⟨st, [], false⟩
  else
    match rpc with
    | Except.ok updated =>
        ⟨{ st with settings := some updated, settingsDraft := some updated,
                   settingsDirty := false, savingSettings := false },
         [⟨"Deckyfin", "Settings saved", false⟩], true⟩
    | Except.error _ =>
        ⟨{ st with savingSettings := false },
         [⟨"Deckyfin", "Unable to save settings", true⟩], true⟩

/-- `OperationResult` returned by the per-game RPCs.  The field list is the
one of `src/unnamed/part_000`; `src/src/index.tsx` declares the same type
without `steps`, and its handlers never read `steps`.  `message` is
modelled as optional because every reader guards it with `?? default`. -/
structure OperationResult where
  ok : Bool
  message : Option String
  timestamp : Option String
  failures : Option (List String)
  prefix_path : Option String
  steps : Option (List String)

/-- State shared by all dispatch handlers: the `busyMap`
(`Record<string, boolean>`) and the number of `loadGames` invocations so
far (counting refresh calls; the claims about dispatch only count them). -/
structure OpState where
  busyMap : List (String × Bool)
  refreshCount : Nat

/-- `markBusy(key, busy)`: `setBusyMap(prev => ({ ...prev, [key]: busy }))`,
i.e. overwrite-or-append the key.  Identical in both modules. -/
def markBusy (m : List (String × Bool)) (key : String) (b : Bool) :
    List (String × Bool) :=
  setEntry m key b

/-- Observable effects of one dispatched task, in program order. -/
inductive Event : Type
  | mark (key : String) (b : Bool)
  | notify (t : Toast)
  | refresh
deriving DecidableEq

/-- `callWithToaster(action, success)` run against the outcome of the one
RPC call `action` performs: on resolution it toasts
`result.message ?? success` (informational) and returns the result; on
rejection it toasts `error?.message ?? "Operation failed"` as critical and
rethrows.  Identical in both modules. -/
def callWithToaster (outcome : Except (Option String) OperationResult)
    (success : String) : List Toast × Except (Option String) OperationResult :=
  match outcome with
  | Except.ok result => ([⟨"Deckyfin", result.message.getD success, false⟩], Except.ok result)
  | Except.error err => ([⟨"Deckyfin", err.getD "Operation failed", true⟩], Except.error err)

/-- One completed run of a dispatch handler: the post-state, the event
trace (in program order) and whether the task settled by rethrowing. -/
structure HandlerRun where
  final : OpState
  events : List Event
  threw : Bool

/-- How every handler ends: the `finally` block runs
`markBusy(key, false)` and then `loadGames()`, whatever happened before. -/
def finishDispatch (st : OpState) (key : String) (toasts : List Toast)
    (threw : Bool) : HandlerRun :=
  { final := { busyMap := markBusy (markBusy st.busyMap key true) key false,
               refreshCount := st.refreshCount + 1 },
    events := [Event.mark key true] ++ toasts.map Event.notify
                ++ [Event.mark key false, Event.refresh],
    threw := threw }

namespace Idx

/-- `GameEntry` of `src/src/index.tsx`.  `last_backup?: string | null` is
collapsed to one `Option` (both `undefined` and `null` become `none`). -/
structure GameEntry where
  name : String
  path : String
  defined_path : Option String
  steam_appid : Nat
  proton_version : String
  proton_dependencies : List String
  proton_sync_paths : List String
  remote_path : Option String
  installed : Bool
  prefix_ready : Bool
  prefix_path : String
  backup_path : String
  last_backup : Option String
  remote_available : Bool

/-- `GamesResponse` of `src/src/index.tsx`. -/
structure GamesResponse where
  games : List GameEntry
  source : String
  refreshedAt : String

/-- The library-related state of `Content` in `src/src/index.tsx`:
the `games` array, `gamesMeta` (`null` before the first successful load),
the `gamesLoading` flag, and the `globalError` banner text. -/
structure LibraryState where
  games : List GameEntry
  gamesMeta : Option (String × String)
  gamesLoading : Bool
  globalError : Option String

/-- `loadGames()` of `src/src/index.tsx` run to completion:
`setGamesLoading(true); setGlobalError(null)`, then on resolution the
games and metadata are replaced wholesale, on rejection `globalError` is
set to the fixed message and games/metadata are left untouched;
`setGamesLoading(false)` runs in `finally`. -/
def loadGames (st : LibraryState) (outcome : Except Unit GamesResponse) :
    LibraryState :=
  match outcome with
  | Except.ok payload =>
      { games := payload.games,
        gamesMeta := some (payload.source, payload.refreshedAt),
        gamesLoading := false,
        globalError := none }
  | Except.error _ =>
      { st with
        globalError := some "Failed to read games YAML. Check the path and syntax.",
        gamesLoading := false }

/-- `handleDownload(name)` of `src/src/index.tsx`: key `download-<name>`,
default success message "Download complete", no steps forwarding. -/
def handleDownload (st : OpState) (name : String)
    (outcome : Except (Option String) OperationResult) : HandlerRun :=
  let key := "download-" ++ name
  let ct := callWithToaster outcome "Download complete"
  finishDispatch st key ct.1 (match ct.2 with
    | Except.error _ => true
    | Except.ok _ => false)

/-- `handleSetup(appid, name)` of `src/src/index.tsx`: key
`setup-<appid>`, default success message "Prefix prepared". -/
def handleSetup (st : OpState) (appid : Nat)
    (outcome : Except (Option String) OperationResult) : HandlerRun :=
  let key := "setup-" ++ toString appid
  let ct := callWithToaster outcome "Prefix prepared"
  finishDispatch st key ct.1 (match ct.2 with
    | Except.error _ => true
    | Except.ok _ => false)

/-- `handleSync(name)` of `src/src/index.tsx`: key `sync-<name>`, default
success message "Saves synced"; the result's `steps` (if any arrive on the
wire) are ignored. -/
def handleSync (st : OpState) (name : String)
    (outcome : Except (Option String) OperationResult) : HandlerRun :=
  let key := "sync-" ++ name
  let ct := callWithToaster outcome "Saves synced"
  finishDispatch st key ct.1 (match ct.2 with
    | Except.error _ => true
    | Except.ok _ => false)

/-- `handleSyncAll()` of `src/src/index.tsx`: fixed key `sync-all`,
default success message "Saves synced for all games". -/
def handleSyncAll (st : OpState)
    (outcome : Except (Option String) OperationResult) : HandlerRun :=
  let ct := callWithToaster outcome "Saves synced for all games"
  finishDispatch st "sync-all" ct.1 (match ct.2 with
    | Except.error _ => true
    | Except.ok _ => false)

end Idx

namespace Unm

/-- `GameEntry` of `src/unnamed/part_000`: the `index.tsx` fields plus the
optional `executable`, `categories` and `launch_options`. -/
structure GameEntry where
  name : String
  path : String
  defined_path : Option String
  steam_appid : Nat
  proton_version : String
  proton_dependencies : List String
  proton_sync_paths : List String
  remote_path : Option String
  executable : Option String
  categories : Option (List String)
  launch_options : Option String
  installed : Bool
  prefix_ready : Bool
  prefix_path : String
  backup_path : String
  last_backup : Option String
  remote_available : Bool

/-- `GamesResponse` of `src/unnamed/part_000` (adds optional `savesPath`,
never read by `loadGames`). -/
structure GamesResponse where
  games : List GameEntry
  source : String
  savesPath : Option String
  refreshedAt : String

/-- The library-related state of `Content` in `src/unnamed/part_000`. -/
structure LibraryState where
  games : List GameEntry
  gamesMeta : Option (String × String)
  gamesLoading : Bool
  globalError : Option String

/-- `loadGames()` of `src/unnamed/part_000`: identical to the one of
`src/src/index.tsx` except for the error-banner text. -/
def loadGames (st : LibraryState) (outcome : Except Unit GamesResponse) :
    LibraryState :=
  match outcome with
  | Except.ok payload =>
      { games := payload.games,
        gamesMeta := some (payload.source, payload.refreshedAt),
        gamesLoading := false,
        globalError := none }
  | Except.error _ =>
      { st with
        globalError := some "Failed to read config file. Check remote host, config path, and JSON syntax.",
        gamesLoading := false }

/-- The per-card busy derivation of `Content` in `src/unnamed/part_000`
(lines 489–493, textually identical in `src/src/index.tsx`):
`busyMap[download-name] || busyMap[setup-appid] || busyMap[sync-name] ||
disableActions`, with an absent key (`undefined`) read as `false`. -/
def cardBusy (busyMap : List (String × Bool)) (game : GameEntry)
    (disableActions : Bool) : Bool :=
  (lookupEntry busyMap ("download-" ++ game.name)).getD false ||
  (lookupEntry busyMap ("setup-" ++ toString game.steam_appid)).getD false ||
  (lookupEntry busyMap ("sync-" ++ game.name)).getD false ||
  disableActions

/-- `handleInstall(name)` of `src/unnamed/part_000`: key
`install-<name>`, default success message "Installation complete"; when
the resolved result carries a non-empty `steps` list, a second toast
titled "Installation steps" with the steps joined by ", " follows. -/
def handleInstall (st : OpState) (name : String)
    (outcome : Except (Option String) OperationResult) : HandlerRun :=
  let key := "install-" ++ name
  let ct := callWithToaster outcome "Installation complete"
  let stepsToasts : List Toast :=
    match ct.2 with
    | Except.ok result =>
      match result.steps with
      | some l => if l.length > 0 then [⟨"Installation steps", String.intercalate ", " l, false⟩] else []
      | none => []
    | Except.error _ => []
  finishDispatch st key (ct.1 ++ stepsToasts) (match ct.2 with
    | Except.error _ => true
    | Except.ok _ => false)

/-- `handleRemove(name)` of `src/unnamed/part_000`: key `remove-<name>`,
default success message "Game removed"; a non-empty `steps` list is
forwarded as a second toast titled "Removal steps". -/
def handleRemove (st : OpState) (name : String)
    (outcome : Except (Option String) OperationResult) : HandlerRun :=
  let key := "remove-" ++ name
  let ct := callWithToaster outcome "Game removed"
  let stepsToasts : List Toast :=
    match ct.2 with
    | Except.ok result =>
      match result.steps with
      | some l => if l.length > 0 then [⟨"Removal steps", String.intercalate ", " l, false⟩] else []
      | none => []
    | Except.error _ => []
  finishDispatch st key (ct.1 ++ stepsToasts) (match ct.2 with
    | Except.error _ => true
    | Except.ok _ => false)

/-- `handleSync(name)` of `src/unnamed/part_000`: textually identical to
the one of `src/src/index.tsx`; the result's `steps` are ignored. -/
def handleSync (st : OpState) (name : String)
    (outcome : Except (Option String) OperationResult) : HandlerRun :=
  let key := "sync-" ++ name
  let ct := callWithToaster outcome "Saves synced"
  finishDispatch st key ct.1 (match ct.2 with
    | Except.error _ => true
    | Except.ok _ => false)

/-- `handleSyncAll()` of `src/unnamed/part_000`: textually identical to
the one of `src/src/index.tsx`. -/
def handleSyncAll (st : OpState)
    (outcome : Except (Option String) OperationResult) : HandlerRun :=
  let ct := callWithToaster outcome "Saves synced for all games"
  finishDispatch st "sync-all" ct.1 (match ct.2 with
    | Except.error _ => true
    | Except.ok _ => false)

end Unm

/-- A small concrete settings object used by the witness theorems: one
top-level string leaf and a nested group with a boolean and a string leaf,
shaped like the `DeckyfinSettings` records of the sources. -/
def sampleSettings : Tree :=
  Tree.obj
    [("localLibraryPath", Tree.prim (Value.str "/home/deck/games")),
     ("remote", Tree.obj
        [("enabled", Tree.prim (Value.bool false)),
         ("host", Tree.prim (Value.str "user@server"))])]

/-- A concrete edited draft, differing from `sampleSettings` at two
leaves; used by the witness theorems. -/
def sampleDraft : Tree :=
  Tree.obj
    [("localLibraryPath", Tree.prim (Value.str "/run/media/sd/games")),
     ("remote", Tree.obj
        [("enabled", Tree.prim (Value.bool true)),
         ("host", Tree.prim (Value.str "user@server"))])]

/-- Concrete successful operation result used by the counterexamples. -/
def sampleResult : OperationResult :=
  ⟨true, some "Download complete", none, none, none, none⟩

/-- Concrete resolved result carrying a non-empty steps list, used by the
counterexample and witness around steps forwarding. -/
def sampleStepsResult : OperationResult :=
  ⟨true, some "done", none, none, none,
   some ["copied prefs", "uploaded archive"]⟩

/-- Number of refresh invocations in an event trace. -/
def countRefreshes : List Event → Nat
  | [] => 0
  | Event.refresh :: rest => countRefreshes rest + 1
  | _ :: rest => countRefreshes rest

/-- Number of notifications in an event trace. -/
def countNotifies : List Event → Nat
  | [] => 0
  | Event.notify _ :: rest => countNotifies rest + 1
  | _ :: rest => countNotifies rest

/-! Helper lemmas about the JavaScript-object plumbing. -/

theorem lookupEntry_setEntry_self {α : Type} (m : List (String × α)) (k : String)
    (v : α) : lookupEntry (setEntry m k v) k = some v := by
  induction m with
  | nil => simp [setEntry, lookupEntry]
  | cons hd tl ih =>
    obtain ⟨a, w⟩ := hd
    by_cases h : a = k
    · simp [setEntry, lookupEntry, h]
    · simp [setEntry, lookupEntry, h, ih]

theorem lookupEntry_setEntry_ne {α : Type} (m : List (String × α)) (k k' : String)
    (v : α) (h : k ≠ k') : lookupEntry (setEntry m k v) k' = lookupEntry m k' := by
  induction m with
  | nil => simp [setEntry, lookupEntry, h]
  | cons hd tl ih =>
    obtain ⟨a, w⟩ := hd
    by_cases ha : a = k
    · subst ha
      simp [setEntry, lookupEntry, h]
    · simp [setEntry, lookupEntry, ha, ih]

theorem ne_of_data_ne (a b : String) (h : a.data ≠ b.data) : a ≠ b :=
  fun e => h (congrArg String.data e)

theorem keyNe_install_download (n m : String) :
    ("install-" ++ n : String) ≠ "download-" ++ m :=
  ne_of_data_ne _ _ (by simp [String.data_append])

theorem keyNe_install_setup (n m : String) :
    ("install-" ++ n : String) ≠ "setup-" ++ m :=
  ne_of_data_ne _ _ (by simp [String.data_append])

theorem keyNe_install_sync (n m : String) :
    ("install-" ++ n : String) ≠ "sync-" ++ m :=
  ne_of_data_ne _ _ (by simp [String.data_append])

theorem keyNe_remove_download (n m : String) :
    ("remove-" ++ n : String) ≠ "download-" ++ m :=
  ne_of_data_ne _ _ (by simp [String.data_append])

theorem keyNe_remove_setup (n m : String) :
    ("remove-" ++ n : String) ≠ "setup-" ++ m :=
  ne_of_data_ne _ _ (by simp [String.data_append])

theorem keyNe_remove_sync (n m : String) :
    ("remove-" ++ n : String) ≠ "sync-" ++ m :=
  ne_of_data_ne _ _ (by simp [String.data_append])

theorem addressesLeaf_iff (t : Tree) (p : List String) :
    addressesLeaf t p = true ↔ ∃ w, getPath t p = some (Tree.prim w) := by
  unfold addressesLeaf
  cases h : getPath t p with
  | none => simp
  | some t' => cases t' <;> simp

theorem addressesLeaf_cons (fields : List (String × Tree)) (s : String)
    (rest : List String) :
    addressesLeaf (Tree.obj fields) (s :: rest) = true ↔
      ∃ t, lookupEntry fields s = some t ∧ addressesLeaf t rest = true := by
  unfold addressesLeaf
  cases h : lookupEntry fields s with
  | none => simp [getPath, h]
  | some t =>
    simp only [getPath, h]
    constructor
    · intro hh
      exact ⟨t, rfl, hh⟩
    · rintro ⟨t', ht', hh⟩
      cases ht'
      exact hh

theorem getPath_setPathGo_self :
    ∀ (p : List String) (fields : List (String × Tree)) (v : Value), p ≠ [] →
      getPath (Tree.obj (setPathGo fields p v)) p = some (Tree.prim v)
  | [], _, _, hp => absurd rfl hp
  | [s], fields, v, _ => by
      simp [setPathGo, getPath, lookupEntry_setEntry_self]
  | s :: s2 :: rest, fields, v, _ => by
      simp only [setPathGo, getPath, lookupEntry_setEntry_self]
      exact getPath_setPathGo_self (s2 :: rest) _ v (by simp)

theorem getPath_setPathGo_other :
    ∀ (p q : List String) (fields : List (String × Tree)) (v : Value),
      addressesLeaf (Tree.obj fields) p = true →
      addressesLeaf (Tree.obj fields) q = true →
      q ≠ p →
      getPath (Tree.obj (setPathGo fields p v)) q = getPath (Tree.obj fields) q
  | [], _, fields, v, hp, _, _ => by
      simp [addressesLeaf, getPath] at hp
  | [_], [], fields, v, _, hq, _ => by
      simp [addressesLeaf, getPath] at hq
  | _ :: _ :: _, [], fields, v, _, hq, _ => by
      simp [addressesLeaf, getPath] at hq
  | [s], b :: q', fields, v, hp, hq, hne => by
      by_cases hb : s = b
      · subst hb
        cases q' with
        | nil => exact absurd rfl hne
        | cons x xs =>
          rw [addressesLeaf_cons] at hp hq
          obtain ⟨t, hlt, hpt⟩ := hp
          obtain ⟨t', hlt', hqt⟩ := hq
          rw [hlt] at hlt'
          cases hlt'
          rw [addressesLeaf_iff] at hpt
          obtain ⟨w, hw⟩ := hpt
          simp only [getPath] at hw
          cases hw
          simp [addressesLeaf, getPath] at hqt
      · simp only [setPathGo, getPath, lookupEntry_setEntry_ne _ _ _ _ hb]
  | s :: s2 :: p'', b :: q', fields, v, hp, hq, hne => by
      by_cases hb : s = b
      · subst hb
        rw [addressesLeaf_cons] at hp hq
        obtain ⟨t, hlt, hpt⟩ := hp
        obtain ⟨t', hlt', hqt⟩ := hq
        rw [hlt] at hlt'
        cases hlt'
        cases t with
        | prim w => simp [addressesLeaf, getPath] at hpt
        | obj g =>
          cases q' with
          | nil => simp [addressesLeaf, getPath] at hqt
          | cons x xs =>
            have hq'ne : (x :: xs) ≠ (s2 :: p'') := by
              intro hh
              exact hne (by rw [hh])
            simp only [setPathGo, getPath, hlt, spreadVal,
              lookupEntry_setEntry_self]
            exact getPath_setPathGo_other (s2 :: p'') (x :: xs) g v hpt hqt hq'ne
      · simp only [setPathGo, getPath, lookupEntry_setEntry_ne _ _ _ _ hb]

theorem getPath_setPathGo_take :
    ∀ (p : List String) (fields : List (String × Tree)) (v : Value) (i : Nat)
      (a key : String),
      p.get? i = some a → key ≠ a →
      addressesLeaf (Tree.obj fields) p = true →
      getPath (Tree.obj (setPathGo fields p v)) (p.take i ++ [key]) =
        getPath (Tree.obj fields) (p.take i ++ [key])
  | [], _, _, i, _, _, hget, _, _ => by simp at hget
  | s :: p', fields, v, 0, a, key, hget, hkey, _ => by
      simp only [List.get?] at hget
      cases hget
      cases p' with
      | nil =>
        simp only [setPathGo, List.take, List.nil_append, getPath,
          lookupEntry_setEntry_ne _ _ _ _ (Ne.symm hkey)]
      | cons s2 p'' =>
        simp only [setPathGo, List.take, List.nil_append, getPath,
          lookupEntry_setEntry_ne _ _ _ _ (Ne.symm hkey)]
  | s :: p', fields, v, (j+1), a, key, hget, hkey, hp => by
      rw [addressesLeaf_cons] at hp
      obtain ⟨t, hlt, hpt⟩ := hp
      cases p' with
      | nil => simp at hget
      | cons s2 p'' =>
        cases t with
        | prim w => simp [addressesLeaf, getPath] at hpt
        | obj g =>
          simp only [setPathGo, List.take, List.cons_append, getPath, hlt,
            spreadVal, lookupEntry_setEntry_self]
          exact getPath_setPathGo_take (s2 :: p'') g v j a key
            (by simpa using hget) hkey hpt

/-- C4: for every non-empty path `p` addressing a leaf of the draft and
every value `v`, `mutateDraft p v` leaves the dirty flag true and the
persisted settings untouched, and produces a draft whose leaf at `p` is
`v`, whose every other leaf is unchanged, and in which, at every ancestor
along `p`, every subtree under a key other than the path's next segment is
the unchanged subtree of the old draft (structural sharing of untouched
subtrees). -/
theorem mutateDraft_frame (st : ConfigStore) (d : Tree) (p : List String)
    (v : Value) (hd : st.settingsDraft = some d) (hp : p ≠ [])
    (hleaf : addressesLeaf d p = true) :
    (mutateDraft st p v).settingsDirty = true ∧
    (mutateDraft st p v).settings = st.settings ∧
    ∃ d', (mutateDraft st p v).settingsDraft = some d' ∧
      getPath d' p = some (Tree.prim v) ∧
      (∀ q, addressesLeaf d q = true → q ≠ p → getPath d' q = getPath d q) ∧
      (∀ i a key, p.get? i = some a → key ≠ a →
        getPath d' (p.take i ++ [key]) = getPath d (p.take i ++ [key])) := by
  cases d with
  | prim w =>
    cases p with
    | nil => exact absurd rfl hp
    | cons s rest => simp [addressesLeaf, getPath] at hleaf
  | obj g =>
    have hdraft : (mutateDraft st p v).settingsDraft
        = some (Tree.obj (setPathGo g p v)) := by
      simp [mutateDraft, hd, spreadVal]
    exact ⟨rfl, rfl, Tree.obj (setPathGo g p v), hdraft,
      getPath_setPathGo_self p g v hp,
      fun q hq hqp => getPath_setPathGo_other p q g v hleaf hq hqp,
      fun i a key hget hkey => getPath_setPathGo_take p g v i a key hget hkey hleaf⟩

/-- Witness for `mutateDraft_frame`: the concrete store holding
`sampleSettings` with the leaf path `["remote", "enabled"]`. -/
theorem mutateDraft_frame_witness :
    (ConfigStore.mk (some sampleSettings) (some sampleSettings) false
        false).settingsDraft = some sampleSettings ∧
    (["remote", "enabled"] : List String) ≠ [] ∧
    addressesLeaf sampleSettings ["remote", "enabled"] = true ∧
    (mutateDraft ⟨some sampleSettings, some sampleSettings, false, false⟩
        ["remote", "enabled"] (Value.bool true)).settingsDirty = true :=
  ⟨rfl, List.cons_ne_nil _ _, rfl,
    (mutateDraft_frame ⟨some sampleSettings, some sampleSettings, false, false⟩
      sampleSettings ["remote", "enabled"] (Value.bool true) rfl
      (List.cons_ne_nil _ _) rfl).1⟩

/-- C5 counterexample: with the draft unset (`null`) and the dirty flag
clear, `mutateDraft` is not a no-op — the draft and the persisted settings
stay unchanged, but the dirty flag is still flipped to true. -/
theorem mutateDraft_null_sets_dirty_cex :
    mutateDraft ⟨none, none, false, false⟩ ["localLibraryPath"]
      (Value.str "/tmp") = ⟨none, none, true, false⟩ := rfl

/-- C5 amended: if the draft is unset, `mutateDraft` leaves the draft and
the persisted settings unchanged but still sets the dirty flag to true
(the `setSettingsDirty(true)` call sits outside the null guard of the
functional updater). -/
theorem mutateDraft_null_draft (st : ConfigStore) (p : List String) (v : Value)
    (hd : st.settingsDraft = none) :
    mutateDraft st p v = { st with settingsDirty := true } := by
  cases st
  simp only at hd
  simp [mutateDraft, hd]

/-- Witness for `mutateDraft_null_draft` at a concrete store with persisted
settings present but the draft unset. -/
theorem mutateDraft_null_draft_witness :
    (ConfigStore.mk (some sampleSettings) none false false).settingsDraft
        = none ∧
    mutateDraft ⟨some sampleSettings, none, false, false⟩ ["remoteHost"]
      (Value.str "deck@server") = ⟨some sampleSettings, none, true, false⟩ :=
  ⟨rfl, mutateDraft_null_draft _ _ _ rfl⟩

/-- C1 counterexample: with the draft set, no commit in flight and the
dirty flag false, `persistSettings` still calls the save RPC, replaces the
persisted settings and issues a notification — it is not a no-op, so the
dirty flag is not one of the no-op conditions. -/
theorem persistSettings_ignores_dirty_cex :
    persistSettings ⟨none, some sampleSettings, false, false⟩
        (Except.ok sampleSettings) =
      ⟨⟨some sampleSettings, some sampleSettings, false, false⟩,
       [⟨"Deckyfin", "Settings saved", false⟩], true⟩ := rfl

/-- C1 amended: `persistSettings` is a no-op (no RPC call, no state change,
no notification) whenever the draft is unset or a commit is already in
flight; the dirty flag is not consulted — with a set draft and no commit in
flight the save RPC is called even when the dirty flag is false (that case
is prevented only by the UI disabling the Save button). -/
theorem persistSettings_noop_guard (st : ConfigStore) (rpc : Except Unit Tree) :
    (st.settingsDraft = none ∨ st.savingSettings = true →
      persistSettings st rpc = ⟨st, [], false⟩) ∧
    (∀ d, st.settingsDraft = some d → st.savingSettings = false →
      (persistSettings st rpc).rpcCalled = true) := by
  constructor
  · intro h
    rcases h with h | h <;> simp [persistSettings, h]
  · intro d hd hs
    cases rpc <;> simp [persistSettings, hd, hs]

/-- Witness for `persistSettings_noop_guard`: with the draft unset the
call leaves the store untouched, toasts nothing and never reaches the
RPC. -/
theorem persistSettings_noop_guard_witness :
    persistSettings ⟨none, none, false, false⟩ (Except.ok sampleSettings) =
      ⟨⟨none, none, false, false⟩, [], false⟩ :=
  (persistSettings_noop_guard ⟨none, none, false, false⟩
      (Except.ok sampleSettings)).1 (Or.inl rfl)

/-- C6: when the save RPC rejects during a commit started from a set draft
with no commit in flight, the whole store ends exactly as before the
attempt — the draft exactly as submitted, the dirty flag still true, no
persisted field altered — and exactly one notification, a critical one, is
issued. -/
theorem persistSettings_failure_preserves (st : ConfigStore) (d : Tree)
    (hd : st.settingsDraft = some d) (hs : st.savingSettings = false)
    (hdirty : st.settingsDirty = true) :
    persistSettings st (Except.error ()) =
      ⟨st, [⟨"Deckyfin", "Unable to save settings", true⟩], true⟩ ∧
    (persistSettings st (Except.error ())).state.settingsDraft = some d ∧
    (persistSettings st (Except.error ())).state.settingsDirty = true := by
  have h1 : persistSettings st (Except.error ()) =
      ⟨{ st with savingSettings := false },
       [⟨"Deckyfin", "Unable to save settings", true⟩], true⟩ := by
    simp [persistSettings, hd, hs]
  have h2 : { st with savingSettings := false } = st := by
    cases st
    simp_all
  rw [h1, h2]
  exact ⟨rfl, hd, hdirty⟩

/-- Witness for `persistSettings_failure_preserves`: the dirty store
holding `sampleDraft` survives a rejected save unchanged. -/
theorem persistSettings_failure_preserves_witness :
    (ConfigStore.mk (some sampleSettings) (some sampleDraft) true
        false).settingsDraft = some sampleDraft ∧
    (ConfigStore.mk (some sampleSettings) (some sampleDraft) true
        false).savingSettings = false ∧
    persistSettings ⟨some sampleSettings, some sampleDraft, true, false⟩
        (Except.error ()) =
      ⟨⟨some sampleSettings, some sampleDraft, true, false⟩,
       [⟨"Deckyfin", "Unable to save settings", true⟩], true⟩ :=
  ⟨rfl, rfl,
    (persistSettings_failure_preserves
      ⟨some sampleSettings, some sampleDraft, true, false⟩
      sampleDraft rfl rfl rfl).1⟩

/-- C7: a failed library refresh retains the previous snapshot (games and
metadata) completely unchanged and raises the global error banner, in both
modules; a successful refresh with zero entities is a valid, non-error
snapshot — empty games, non-null metadata, no error — distinguished from
the absence of data (`gamesMeta` still `null`). -/
theorem loadGames_failure_and_empty (st : Idx.LibraryState)
    (stu : Unm.LibraryState) (src ts : String) (sv : Option String) :
    Idx.loadGames st (Except.error ()) =
      { st with
        globalError := some "Failed to read games YAML. Check the path and syntax.",
        gamesLoading := false } ∧
    (Idx.loadGames st (Except.error ())).games = st.games ∧
    (Idx.loadGames st (Except.error ())).gamesMeta = st.gamesMeta ∧
    Idx.loadGames st (Except.ok ⟨[], src, ts⟩) =
      ⟨[], some (src, ts), false, none⟩ ∧
    Unm.loadGames stu (Except.error ()) =
      { stu with
        globalError := some "Failed to read config file. Check remote host, config path, and JSON syntax.",
        gamesLoading := false } ∧
    (Unm.loadGames stu (Except.error ())).games = stu.games ∧
    (Unm.loadGames stu (Except.error ())).gamesMeta = stu.gamesMeta ∧
    Unm.loadGames stu (Except.ok ⟨[], src, sv, ts⟩) =
      ⟨[], some (src, ts), false, none⟩ :=
  ⟨rfl, rfl, rfl, rfl, rfl, rfl, rfl, rfl⟩

/-- C3: once a dispatched task settles — its RPC call resolved or rejected
— the operation's key is no longer busy: the busy map does not map it to
true (reading it through the `undefined`-as-false coercion yields false).
Holds for all eight handlers of both modules, on the error path included,
because the cleanup runs in `finally`. -/
theorem dispatch_clears_busy (st : OpState) (name : String) (appid : Nat)
    (outcome : Except (Option String) OperationResult) :
    (lookupEntry (Idx.handleDownload st name outcome).final.busyMap
        ("download-" ++ name)).getD false = false ∧
    (lookupEntry (Idx.handleSetup st appid outcome).final.busyMap
        ("setup-" ++ toString appid)).getD false = false ∧
    (lookupEntry (Idx.handleSync st name outcome).final.busyMap
        ("sync-" ++ name)).getD false = false ∧
    (lookupEntry (Idx.handleSyncAll st outcome).final.busyMap
        "sync-all").getD false = false ∧
    (lookupEntry (Unm.handleInstall st name outcome).final.busyMap
        ("install-" ++ name)).getD false = false ∧
    (lookupEntry (Unm.handleRemove st name outcome).final.busyMap
        ("remove-" ++ name)).getD false = false ∧
    (lookupEntry (Unm.handleSync st name outcome).final.busyMap
        ("sync-" ++ name)).getD false = false ∧
    (lookupEntry (Unm.handleSyncAll st outcome).final.busyMap
        "sync-all").getD false = false := by
  simp [Idx.handleDownload, Idx.handleSetup, Idx.handleSync, Idx.handleSyncAll,
    Unm.handleInstall, Unm.handleRemove, Unm.handleSync, Unm.handleSyncAll,
    finishDispatch, markBusy, lookupEntry_setEntry_self]

/-- C2 counterexample: after a dispatched download completes, its key is
still present in the busy map, mapped to false — completion sets the entry
to false instead of removing it, so the map does not contain only `true`
entries for in-flight operations. -/
theorem busy_entry_not_removed_cex :
    (Idx.handleDownload ⟨[], 0⟩ "Alpha"
        (Except.ok sampleResult)).final.busyMap =
      [("download-Alpha", false)] := rfl

/-- C2 amended: on completion a dispatch sets its key's busy-map entry to
false rather than removing it: the key stays present, mapped to false.
The map can therefore hold false entries for settled operations, but it
never maps a settled operation's key to true. -/
theorem busy_entry_set_false (st : OpState) (name : String) (appid : Nat)
    (outcome : Except (Option String) OperationResult) :
    lookupEntry (Idx.handleDownload st name outcome).final.busyMap
        ("download-" ++ name) = some false ∧
    lookupEntry (Idx.handleSetup st appid outcome).final.busyMap
        ("setup-" ++ toString appid) = some false ∧
    lookupEntry (Idx.handleSync st name outcome).final.busyMap
        ("sync-" ++ name) = some false ∧
    lookupEntry (Idx.handleSyncAll st outcome).final.busyMap
        "sync-all" = some false ∧
    lookupEntry (Unm.handleInstall st name outcome).final.busyMap
        ("install-" ++ name) = some false ∧
    lookupEntry (Unm.handleRemove st name outcome).final.busyMap
        ("remove-" ++ name) = some false ∧
    lookupEntry (Unm.handleSync st name outcome).final.busyMap
        ("sync-" ++ name) = some false ∧
    lookupEntry (Unm.handleSyncAll st outcome).final.busyMap
        "sync-all" = some false := by
  simp [Idx.handleDownload, Idx.handleSetup, Idx.handleSync, Idx.handleSyncAll,
    Unm.handleInstall, Unm.handleRemove, Unm.handleSync, Unm.handleSyncAll,
    finishDispatch, markBusy, lookupEntry_setEntry_self]

theorem countRefreshes_append (a b : List Event) :
    countRefreshes (a ++ b) = countRefreshes a + countRefreshes b := by
  induction a with
  | nil => simp [countRefreshes]
  | cons h t ih =>
    cases h with
    | mark k bb =>
      show countRefreshes (t ++ b) = countRefreshes t + countRefreshes b
      exact ih
    | notify t0 =>
      show countRefreshes (t ++ b) = countRefreshes t + countRefreshes b
      exact ih
    | refresh =>
      show countRefreshes (t ++ b) + 1
        = countRefreshes t + 1 + countRefreshes b
      rw [ih]
      omega

theorem countRefreshes_map_notify (ts : List Toast) :
    countRefreshes (ts.map Event.notify) = 0 := by
  induction ts with
  | nil => simp [countRefreshes]
  | cons h t ih => simp [countRefreshes, ih]

/-- Shape of every handler's trace: whatever the outcome, it ends with the
unmark of its key immediately followed by exactly one refresh, and the
refresh count grows by exactly one. -/
theorem finishDispatch_protocol (st : OpState) (key : String)
    (toasts : List Toast) (threw : Bool) :
    countRefreshes (finishDispatch st key toasts threw).events = 1 ∧
    (∃ pre, (finishDispatch st key toasts threw).events =
        pre ++ [Event.mark key false, Event.refresh] ∧
      countRefreshes pre = 0) ∧
    (finishDispatch st key toasts threw).final.refreshCount
      = st.refreshCount + 1 := by
  refine ⟨?_, ⟨Event.mark key true :: toasts.map Event.notify, ?_, ?_⟩, rfl⟩
  · simp [finishDispatch, countRefreshes_append, countRefreshes_map_notify,
      countRefreshes]
  · simp [finishDispatch]
  · simp [countRefreshes, countRefreshes_map_notify]

/-- C8: every dispatch, of every operation key, whether its call resolves
or rejects, unconditionally unmarks its key and then invokes exactly one
library refresh, in that order, at the very end of its trace; each
completed dispatch increases the refresh-invocation count by exactly one.
Holds for all eight handlers of both modules. -/
theorem dispatch_unmark_then_refresh (st : OpState) (name : String)
    (appid : Nat) (outcome : Except (Option String) OperationResult) :
    (countRefreshes (Idx.handleDownload st name outcome).events = 1 ∧
     (∃ pre, (Idx.handleDownload st name outcome).events =
         pre ++ [Event.mark ("download-" ++ name) false, Event.refresh] ∧
       countRefreshes pre = 0) ∧
     (Idx.handleDownload st name outcome).final.refreshCount
       = st.refreshCount + 1) ∧
    (countRefreshes (Idx.handleSetup st appid outcome).events = 1 ∧
     (∃ pre, (Idx.handleSetup st appid outcome).events =
         pre ++ [Event.mark ("setup-" ++ toString appid) false, Event.refresh] ∧
       countRefreshes pre = 0) ∧
     (Idx.handleSetup st appid outcome).final.refreshCount
       = st.refreshCount + 1) ∧
    (countRefreshes (Idx.handleSync st name outcome).events = 1 ∧
     (∃ pre, (Idx.handleSync st name outcome).events =
         pre ++ [Event.mark ("sync-" ++ name) false, Event.refresh] ∧
       countRefreshes pre = 0) ∧
     (Idx.handleSync st name outcome).final.refreshCount
       = st.refreshCount + 1) ∧
    (countRefreshes (Idx.handleSyncAll st outcome).events = 1 ∧
     (∃ pre, (Idx.handleSyncAll st outcome).events =
         pre ++ [Event.mark "sync-all" false, Event.refresh] ∧
       countRefreshes pre = 0) ∧
     (Idx.handleSyncAll st outcome).final.refreshCount
       = st.refreshCount + 1) ∧
    (countRefreshes (Unm.handleInstall st name outcome).events = 1 ∧
     (∃ pre, (Unm.handleInstall st name outcome).events =
         pre ++ [Event.mark ("install-" ++ name) false, Event.refresh] ∧
       countRefreshes pre = 0) ∧
     (Unm.handleInstall st name outcome).final.refreshCount
       = st.refreshCount + 1) ∧
    (countRefreshes (Unm.handleRemove st name outcome).events = 1 ∧
     (∃ pre, (Unm.handleRemove st name outcome).events =
         pre ++ [Event.mark ("remove-" ++ name) false, Event.refresh] ∧
       countRefreshes pre = 0) ∧
     (Unm.handleRemove st name outcome).final.refreshCount
       = st.refreshCount + 1) ∧
    (countRefreshes (Unm.handleSync st name outcome).events = 1 ∧
     (∃ pre, (Unm.handleSync st name outcome).events =
         pre ++ [Event.mark ("sync-" ++ name) false, Event.refresh] ∧
       countRefreshes pre = 0) ∧
     (Unm.handleSync st name outcome).final.refreshCount
       = st.refreshCount + 1) ∧
    (countRefreshes (Unm.handleSyncAll st outcome).events = 1 ∧
     (∃ pre, (Unm.handleSyncAll st outcome).events =
         pre ++ [Event.mark "sync-all" false, Event.refresh] ∧
       countRefreshes pre = 0) ∧
     (Unm.handleSyncAll st outcome).final.refreshCount
       = st.refreshCount + 1) :=
  ⟨finishDispatch_protocol _ _ _ _, finishDispatch_protocol _ _ _ _,
   finishDispatch_protocol _ _ _ _, finishDispatch_protocol _ _ _ _,
   finishDispatch_protocol _ _ _ _, finishDispatch_protocol _ _ _ _,
   finishDispatch_protocol _ _ _ _, finishDispatch_protocol _ _ _ _⟩

/-- C9 counterexample: a sync dispatch whose call resolves with a result
carrying a non-empty steps list issues exactly one notification — the
steps list is not forwarded as a second, separate notification, so the
forwarding does not hold for every operation kind dispatched through the
protocol. -/
theorem sync_ignores_steps_cex :
    countNotifies (Unm.handleSync ⟨[], 0⟩ "Alpha"
        (Except.ok sampleStepsResult)).events = 1 := rfl

/-- C9 amended: only the install and remove dispatches of the unnamed
module forward a resolved result's non-empty steps list as a second,
separate notification (titled "Installation steps" / "Removal steps" with
the steps joined by ", "); its sync and sync-all dispatches, and all four
dispatches of the named module (download, setup, sync, sync-all), issue
exactly one notification and ignore the steps even when the resolved
result carries a non-empty list. -/
theorem steps_second_notification (st : OpState) (name : String)
    (appid : Nat) (r : OperationResult) (l : List String)
    (hsteps : r.steps = some l) (hne : l ≠ []) :
    (Unm.handleInstall st name (Except.ok r)).events =
      [Event.mark ("install-" ++ name) true,
       Event.notify ⟨"Deckyfin", r.message.getD "Installation complete", false⟩,
       Event.notify ⟨"Installation steps", String.intercalate ", " l, false⟩,
       Event.mark ("install-" ++ name) false, Event.refresh] ∧
    (Unm.handleRemove st name (Except.ok r)).events =
      [Event.mark ("remove-" ++ name) true,
       Event.notify ⟨"Deckyfin", r.message.getD "Game removed", false⟩,
       Event.notify ⟨"Removal steps", String.intercalate ", " l, false⟩,
       Event.mark ("remove-" ++ name) false, Event.refresh] ∧
    countNotifies (Unm.handleSync st name (Except.ok r)).events = 1 ∧
    countNotifies (Unm.handleSyncAll st (Except.ok r)).events = 1 ∧
    countNotifies (Idx.handleDownload st name (Except.ok r)).events = 1 ∧
    countNotifies (Idx.handleSetup st appid (Except.ok r)).events = 1 ∧
    countNotifies (Idx.handleSync st name (Except.ok r)).events = 1 ∧
    countNotifies (Idx.handleSyncAll st (Except.ok r)).events = 1 := by
  cases l with
  | nil => exact absurd rfl hne
  | cons x xs =>
    refine ⟨?_, ?_, ?_, ?_, ?_, ?_, ?_, ?_⟩ <;>
      simp [Unm.handleInstall, Unm.handleRemove, Unm.handleSync,
        Unm.handleSyncAll, Idx.handleDownload, Idx.handleSetup, Idx.handleSync,
        Idx.handleSyncAll, finishDispatch, callWithToaster, countNotifies,
        hsteps]

/-- Witness for `steps_second_notification`: a concrete install dispatch
whose result carries two steps produces the message toast and then the
separate steps toast. -/
theorem steps_second_notification_witness :
    sampleStepsResult.steps = some ["copied prefs", "uploaded archive"] ∧
    (["copied prefs", "uploaded archive"] : List String) ≠ [] ∧
    (Unm.handleInstall ⟨[], 0⟩ "Alpha" (Except.ok sampleStepsResult)).events =
      [Event.mark "install-Alpha" true,
       Event.notify ⟨"Deckyfin", "done", false⟩,
       Event.notify ⟨"Installation steps", "copied prefs, uploaded archive",
         false⟩,
       Event.mark "install-Alpha" false, Event.refresh] :=
  ⟨rfl, List.cons_ne_nil _ _,
    (steps_second_notification ⟨[], 0⟩ "Alpha" 42 sampleStepsResult
      ["copied prefs", "uploaded archive"] rfl (List.cons_ne_nil _ _)).1⟩

/-- C10: in the unnamed module the per-card busy flag reads only the keys
`download-<name>`, `setup-<appid>` and `sync-<name>` (ORed with the global
gate), while the install and remove handlers mark the keys
`install-<name>` / `remove-<name>`; marking an install or remove key
therefore never changes a card's busy flag (though marking the sync key
does make it busy), so an in-flight install or remove never disables that
game's controls. -/
theorem cardBusy_ignores_install_remove (st : OpState) (n : String)
    (outcome : Except (Option String) OperationResult)
    (m : List (String × Bool)) (g : Unm.GameEntry) (d : Bool) :
    (Unm.handleInstall st n outcome).events.head? =
      some (Event.mark ("install-" ++ n) true) ∧
    (Unm.handleRemove st n outcome).events.head? =
      some (Event.mark ("remove-" ++ n) true) ∧
    Unm.cardBusy (markBusy m ("install-" ++ g.name) true) g d
      = Unm.cardBusy m g d ∧
    Unm.cardBusy (markBusy m ("remove-" ++ g.name) true) g d
      = Unm.cardBusy m g d ∧
    Unm.cardBusy (markBusy m ("sync-" ++ g.name) true) g d = true := by
  refine ⟨?_, ?_, ?_, ?_, ?_⟩
  · simp [Unm.handleInstall, finishDispatch]
  · simp [Unm.handleRemove, finishDispatch]
  · simp only [Unm.cardBusy, markBusy,
      lookupEntry_setEntry_ne _ _ _ _ (keyNe_install_download g.name g.name),
      lookupEntry_setEntry_ne _ _ _ _
        (keyNe_install_setup g.name (toString g.steam_appid)),
      lookupEntry_setEntry_ne _ _ _ _ (keyNe_install_sync g.name g.name)]
  · simp only [Unm.cardBusy, markBusy,
      lookupEntry_setEntry_ne _ _ _ _ (keyNe_remove_download g.name g.name),
      lookupEntry_setEntry_ne _ _ _ _
        (keyNe_remove_setup g.name (toString g.steam_appid)),
      lookupEntry_setEntry_ne _ _ _ _ (keyNe_remove_sync g.name g.name)]
  · simp [Unm.cardBusy, markBusy, lookupEntry_setEntry_self]

end Deckyfin
